import Mathlib

/-!
Shallow embedding of the realtime interview session controller
(src/components/LiveSession.tsx) together with the data model from the
repository type declarations. Times on the audio output clock are modelled
as rationals, timestamps as naturals, and the mutable refs of the
controller as fields of an explicit state record. Each inbound event of
the streaming session client becomes a state-transition function that also
returns the list of messages transmitted back to the session.
-/

namespace AIMaster

/-! ## Data model (types.ts) -/

inductive Role where
  | user
  | model
  | coachHint
  | coachFeedback
  | coachReference
deriving DecidableEq, Repr, BEq

structure ChatMessage where
  role : Role
  text : String
  timestamp : Nat
  score : Option String := none
  refined_answer : Option String := none
deriving DecidableEq, Repr

structure LastAnswerFeedback where
  score : String
  advice : String
  refined_response : String
deriving DecidableEq, Repr

structure InterviewerMindset where
  mood : String
  internal_thought : String
  suggested_answer_tips : Option String := none
  reference_answer_for_question : Option String := none
  last_answer_feedback : Option LastAnswerFeedback := none
deriving DecidableEq, Repr

inductive SessionStatus where
  | listening
  | thinking
  | speaking
deriving DecidableEq, Repr

inductive ConnectionStatus where
  | initializing
  | connecting
  | connected
  | reconnecting
  | error
deriving DecidableEq, Repr

/-- One scheduled playback segment: the buffer source node together with
the output-clock start offset passed to its start call and the decoded
buffer duration. -/
structure Segment where
  start : ℚ
  duration : ℚ
deriving DecidableEq, Repr

/-- The controller state: the React state variables and the mutable refs of
LiveSession, read and written by the event callbacks. -/
structure SessionState where
  connectionStatus : ConnectionStatus
  sessionStatus : SessionStatus
  isMicOn : Bool
  chatHistory : List ChatMessage
  mindset : InterviewerMindset
  nextStartTime : ℚ
  sources : List Segment
  currentInputTranscription : String
  currentOutputTranscription : String
  steeringInput : String
  hasActiveSession : Bool
  audioVolume : ℚ
deriving DecidableEq, Repr

/-- Messages transmitted back to the live session. -/
inductive OutboundMessage where
  | toolResponse (id name result : String)
  | mediaAudio (data : List ℤ)
  | content (role text : String)
deriving DecidableEq, Repr

/-! ## Audio codec utilities -/

/-- Modelled from the spec: src/services/audioUtils.ts is imported by
LiveSession.tsx but is not part of the available sources. Per the spec,
encoding converts a floating-point PCM sample in the range minus one to
one into a 16-bit signed integer, clamping out-of-range input rather than
throwing. -/
def encodeSample (x : ℚ) : ℤ :=
  max (-32768) (min 32767 (round (x * 32768)))

/-- Modelled from the spec: decoding reinterprets a raw 16-bit sample as a
normalized float. -/
def decodeSample (i : ℤ) : ℚ :=
  (i : ℚ) / 32768

/-- Modelled from the spec: createPcmBlob packages the encoded 16-bit
samples of a capture frame for transmission. -/
def createPcmBlob (samples : List ℚ) : List ℤ :=
  samples.map encodeSample

/-- Modelled from the spec: the decoding direction of the codec, sample by
sample. -/
def decodePcm (data : List ℤ) : List ℚ :=
  data.map decodeSample

/-! ## Controller initial state (LiveSession.tsx, useState / useRef initializers) -/

def initialMindset : InterviewerMindset :=
  { mood := "Neutral", internal_thought := "正在准备面试环境..." }

def initialState : SessionState :=
  { connectionStatus := ConnectionStatus.initializing
    sessionStatus := SessionStatus.listening
    isMicOn := true
    chatHistory := []
    mindset := initialMindset
    nextStartTime := 0
    sources := []
    currentInputTranscription := ""
    currentOutputTranscription := ""
    steeringInput := ""
    hasActiveSession := false
    audioVolume := 0 }

/-! ## Tool-call handling (onmessage, lines 181-238) -/

/-- Coaching feedback turn pushed when the reported feedback has a truthy
advice field. -/
def feedbackTurns (now : Nat) (m : InterviewerMindset) : List ChatMessage :=
  match m.last_answer_feedback with
  | some fb =>
      if fb.advice ≠ "" then
        [{ role := Role.coachFeedback
           text := fb.advice
           timestamp := now
           score := some fb.score
           refined_answer := some fb.refined_response }]
      else []
  | none => []

/-- Coaching reference turn pushed when a truthy reference answer is
present; its timestamp is the capture time plus 50. -/
def referenceTurns (now : Nat) (m : InterviewerMindset) : List ChatMessage :=
  match m.reference_answer_for_question with
  | some r =>
      if r ≠ "" then
        [{ role := Role.coachReference, text := r, timestamp := now + 50 }]
      else []
  | none => []

/-- Coaching hint turn pushed when truthy tips are present; its timestamp
is the capture time plus 100. -/
def hintTurns (now : Nat) (m : InterviewerMindset) : List ChatMessage :=
  match m.suggested_answer_tips with
  | some t =>
      if t ≠ "" then
        [{ role := Role.coachHint, text := t, timestamp := now + 100 }]
      else []
  | none => []

/-- The coaching turns injected into the chat by one update_mindset call,
in source order: feedback, then reference, then hint. -/
def coachTurns (now : Nat) (m : InterviewerMindset) : List ChatMessage :=
  feedbackTurns now m ++ referenceTurns now m ++ hintTurns now m

/-- Truthiness of the feedback advice field, as tested by the source. -/
def feedbackPresent (m : InterviewerMindset) : Bool :=
  match m.last_answer_feedback with
  | some fb => fb.advice != ""
  | none => false

/-- Truthiness of the reference answer field, as tested by the source. -/
def referencePresent (m : InterviewerMindset) : Bool :=
  match m.reference_answer_for_question with
  | some r => r != ""
  | none => false

/-- Truthiness of the suggested tips field, as tested by the source. -/
def hintPresent (m : InterviewerMindset) : Bool :=
  match m.suggested_answer_tips with
  | some t => t != ""
  | none => false

/-- Handling of one function call of an inbound toolCall message: an
update_mindset call replaces the mindset with the call args, appends the
coaching turns and sends the tool response with result ok; any other call
name is ignored. -/
def handleFunctionCall (now : Nat) (callId name : String) (args : InterviewerMindset)
    (s : SessionState) : SessionState × List OutboundMessage :=
  if name = "update_mindset" then
    ({ s with
        mindset := args
        chatHistory := s.chatHistory ++ coachTurns now args },
     [OutboundMessage.toolResponse callId name "ok"])
  else (s, [])

/-! ## Transcription fragments and turn completion (onmessage, lines 242-271) -/

/-- JavaScript string trim: drop whitespace characters from both ends. -/
def trimString (s : String) : String :=
  String.mk (((s.data.dropWhile Char.isWhitespace).reverse.dropWhile Char.isWhitespace).reverse)

def handleOutputTranscription (t : String) (s : SessionState) : SessionState :=
  { s with
      currentOutputTranscription := s.currentOutputTranscription ++ t
      sessionStatus := SessionStatus.speaking }

def handleInputTranscription (t : String) (s : SessionState) : SessionState :=
  { s with
      currentInputTranscription := s.currentInputTranscription ++ t
      sessionStatus := SessionStatus.listening }

/-- turnComplete handling: when either accumulator trims to a non-empty
string, push a user turn for a non-empty input accumulator and then a
model turn for a non-empty output accumulator, and clear both. -/
def handleTurnComplete (now : Nat) (s : SessionState) : SessionState :=
  let userText := s.currentInputTranscription
  let modelText := s.currentOutputTranscription
  let s1 := { s with sessionStatus := SessionStatus.listening }
  if trimString userText ≠ "" ∨ trimString modelText ≠ "" then
    { s1 with
        chatHistory := s1.chatHistory
          ++ (if trimString userText ≠ "" then
                [{ role := Role.user, text := userText, timestamp := now }] else [])
          ++ (if trimString modelText ≠ "" then
                [{ role := Role.model, text := modelText, timestamp := now }] else [])
        currentInputTranscription := ""
        currentOutputTranscription := "" }
  else s1

/-! ## Audio output scheduling (onmessage, lines 274-307) -/

/-- One inbound audioChunk event: the output-context clock value observed
when the chunk is handled, and the duration of the decoded buffer. -/
structure AudioChunkEvent where
  ctxTime : ℚ
  duration : ℚ
deriving DecidableEq, Repr

/-- Handling of one inbound audio chunk: clamp the scheduling clock to the
current context time, start the decoded buffer at the clamped clock, then
advance the clock by the buffer duration and track the source. -/
def handleAudioChunk (ctxTime duration : ℚ) (s : SessionState) : SessionState :=
  let next := max s.nextStartTime ctxTime
  { s with
      sessionStatus := SessionStatus.speaking
      nextStartTime := next + duration
      sources := s.sources ++ [{ start := next, duration := duration }] }

def runChunks (s : SessionState) (evs : List AudioChunkEvent) : SessionState :=
  evs.foldl (fun st e => handleAudioChunk e.ctxTime e.duration st) s

/-- The gapless non-overlap property of a schedule: every segment ends no
later than the next segment starts. -/
def gapless (segs : List Segment) : Prop :=
  List.Chain' (fun a b => a.start + a.duration ≤ b.start) segs

/-- Scheduling invariant maintained by the audio output handler: the
tracked sources form a gapless schedule and every tracked segment ends no
later than the scheduling clock. -/
def SchedInv (s : SessionState) : Prop :=
  gapless s.sources ∧ ∀ g ∈ s.sources, g.start + g.duration ≤ s.nextStartTime

/-! ## Interruption (onmessage, lines 309-315) -/

/-- interrupted handling: stop and drop every tracked source, reset the
scheduling clock, clear the output transcription accumulator and return to
listening. -/
def handleInterrupted (s : SessionState) : SessionState :=
  { s with
      sources := []
      nextStartTime := 0
      currentOutputTranscription := ""
      sessionStatus := SessionStatus.listening }

/-! ## Microphone toggle and the audio frame tap (lines 157-172, 405-411) -/

def toggleMic (s : SessionState) : SessionState :=
  { s with isMicOn := !s.isMicOn }

/-- The script processor audio frame tap: with the microphone flag off it
returns without touching state or sending; otherwise it updates the
displayed volume, possibly resets the status to listening, and sends the
encoded PCM frame. -/
def onaudioprocess (inputData : List ℚ) (s : SessionState) :
    SessionState × List OutboundMessage :=
  if s.isMicOn = false then (s, [])
  else
    let volume : ℚ := (inputData.foldl (fun acc v => acc + |v|) 0) / (inputData.length : ℚ)
    let s1 := { s with audioVolume := min (volume * 500) 100 }
    let s2 :=
      if volume > 1 / 100 ∧ s1.sessionStatus ≠ SessionStatus.speaking then
        { s1 with sessionStatus := SessionStatus.listening }
      else s1
    (s2, [OutboundMessage.mediaAudio (createPcmBlob inputData)])

/-! ## Steering directives (handleSteering, lines 413-430) -/

def handleSteering (now : Nat) (s : SessionState) : SessionState × List OutboundMessage :=
  if trimString s.steeringInput = "" ∨ s.hasActiveSession = false then (s, [])
  else
    ({ s with
        chatHistory := s.chatHistory
          ++ [{ role := Role.user, text := "(指令) " ++ s.steeringInput, timestamp := now }]
        steeringInput := "" },
     [OutboundMessage.content "user" ("[System Instruction: " ++ s.steeringInput ++ "]")])

/-! ## Reconnect instruction preparation (connectToGemini, lines 115-121) -/

/-- JavaScript slice with a negative index: the last n elements of the
list, or the whole list when it is shorter. -/
def sliceLast (n : Nat) (l : List α) : List α :=
  l.drop (l.length - n)

def formatTurn (m : ChatMessage) : String :=
  (if m.role = Role.user then "Candidate" else "Interviewer") ++ ": " ++ m.text

/-- The conversational turns of the transcript: user and model roles
only. -/
def convTurns (history : List ChatMessage) : List ChatMessage :=
  history.filter fun m => m.role == Role.user || m.role == Role.model

/-- The formatted replay lines: the last twenty conversational turns, one
formatted line each. -/
def replayLines (history : List ChatMessage) : List String :=
  (sliceLast 20 (convTurns history)).map formatTurn

/-- The final system instruction: on a retry with a non-empty transcript
the replay context block is appended to the persona instruction. -/
def prepareInstruction (systemInstruction : String) (isRetry : Bool)
    (history : List ChatMessage) : String :=
  if isRetry ∧ 0 < history.length then
    systemInstruction
      ++ "\n\n[SYSTEM: CONNECTION RESTORED] Resume the interview. Transcript:\n"
      ++ String.intercalate "\n" (replayLines history)
  else systemInstruction

/-! ## Concrete states used by the witnesses -/

def argsMin : InterviewerMindset :=
  { mood := "Neutral", internal_thought := "候选人刚进入房间" }

def argsFull : InterviewerMindset :=
  { mood := "Impressed"
    internal_thought := "回答很有结构"
    suggested_answer_tips := some "先给结论"
    reference_answer_for_question := some "我主导了核心链路的改造"
    last_answer_feedback := some
      { score := "8/10", advice := "补充量化数据", refined_response := "我将可用性提升到了四个九" } }

def stBothTranscripts : SessionState :=
  { initialState with
      currentInputTranscription := "你好"
      currentOutputTranscription := "请开始自我介绍" }

def stInputPending : SessionState :=
  { initialState with currentInputTranscription := "正在回答" }

def stMicOff : SessionState :=
  { initialState with isMicOn := false }

def stSteering : SessionState :=
  { initialState with steeringInput := "换个话题", hasActiveSession := true }

def hist25 : List ChatMessage :=
  (List.range 25).map fun i => { role := Role.user, text := toString i, timestamp := i }

def chunksEx : List AudioChunkEvent :=
  [{ ctxTime := 0, duration := 1 }, { ctxTime := 1 / 2, duration := 2 }]

/-! ## Claim theorems -/

/-- C2: every update_mindset toolCall replaces the mindset with the call
args and sends exactly one tool result acknowledgment with the success
payload; when the args carry only mood and internal_thought, no coaching
turn is appended to the chat history. -/
theorem update_mindset_replaces_and_acks (now : Nat) (callId : String)
    (args : InterviewerMindset) (s : SessionState) :
    (handleFunctionCall now callId "update_mindset" args s).1.mindset = args
    ∧ (handleFunctionCall now callId "update_mindset" args s).2
        = [OutboundMessage.toolResponse callId "update_mindset" "ok"]
    ∧ (args.last_answer_feedback = none → args.reference_answer_for_question = none →
        args.suggested_answer_tips = none →
        (handleFunctionCall now callId "update_mindset" args s).1.chatHistory
          = s.chatHistory) := by
  refine ⟨rfl, rfl, fun hfb href htip => ?_⟩
  simp [handleFunctionCall, coachTurns, feedbackTurns, referenceTurns, hintTurns,
    hfb, href, htip]

/-- Witness for C2 at a minimal args record and the initial state. -/
theorem update_mindset_replaces_and_acks_witness :
    (handleFunctionCall 3 "call-1" "update_mindset" argsMin initialState).1.mindset = argsMin
    ∧ (handleFunctionCall 3 "call-1" "update_mindset" argsMin initialState).1.chatHistory
        = initialState.chatHistory :=
  ⟨(update_mindset_replaces_and_acks 3 "call-1" argsMin initialState).1,
   (update_mindset_replaces_and_acks 3 "call-1" argsMin initialState).2.2 rfl rfl rfl⟩

/-- C3: every interrupted event empties the tracked playback sources,
resets the scheduling clock to zero, clears the pending output
transcription accumulator and sets the session status to listening. -/
theorem interrupted_resets_playback (s : SessionState) :
    (handleInterrupted s).sources = []
    ∧ (handleInterrupted s).nextStartTime = 0
    ∧ (handleInterrupted s).currentOutputTranscription = ""
    ∧ (handleInterrupted s).sessionStatus = SessionStatus.listening :=
  ⟨rfl, rfl, rfl, rfl⟩

/-- C7 counterexample: interruption does not clear both accumulators; with
a pending input accumulator the inbound buffer survives the interrupted
event, so the claim that both buffers are cleared is false. -/
theorem interrupted_both_buffers_cex :
    ¬ ((handleInterrupted stInputPending).currentInputTranscription = ""
        ∧ (handleInterrupted stInputPending).currentOutputTranscription = "") := by
  intro h
  exact absurd h.1 (by decide)

/-- C7 amended: on every interruption only the outbound (interviewer)
accumulator is cleared; the inbound (candidate) accumulator is left
unchanged. -/
theorem interrupted_clears_only_output (s : SessionState) :
    (handleInterrupted s).currentOutputTranscription = ""
    ∧ (handleInterrupted s).currentInputTranscription = s.currentInputTranscription :=
  ⟨rfl, rfl⟩

/-- C4: a turnComplete event with both accumulators non-empty after
trimming appends exactly two turns, the candidate turn before the
interviewer turn, and clears both accumulators; with both accumulators
empty it appends no turn. -/
theorem turnComplete_appends_and_clears (now : Nat) (s : SessionState) :
    (trimString s.currentInputTranscription ≠ "" → trimString s.currentOutputTranscription ≠ "" →
      (handleTurnComplete now s).chatHistory
          = s.chatHistory
            ++ [{ role := Role.user, text := s.currentInputTranscription, timestamp := now },
                { role := Role.model, text := s.currentOutputTranscription, timestamp := now }]
      ∧ (handleTurnComplete now s).currentInputTranscription = ""
      ∧ (handleTurnComplete now s).currentOutputTranscription = "")
    ∧ (s.currentInputTranscription = "" → s.currentOutputTranscription = "" →
        (handleTurnComplete now s).chatHistory = s.chatHistory) := by
  constructor
  · intro hu hm
    simp [handleTurnComplete, hu, hm]
  · intro hu hm
    have ht : trimString "" = "" := rfl
    simp [handleTurnComplete, hu, hm, ht]

/-- Witness for C4: both accumulators non-empty at one concrete state and
both empty at the initial state. -/
theorem turnComplete_appends_and_clears_witness :
    ((handleTurnComplete 9 stBothTranscripts).chatHistory
        = stBothTranscripts.chatHistory
          ++ [{ role := Role.user, text := stBothTranscripts.currentInputTranscription,
                timestamp := 9 },
              { role := Role.model, text := stBothTranscripts.currentOutputTranscription,
                timestamp := 9 }]
      ∧ (handleTurnComplete 9 stBothTranscripts).currentInputTranscription = ""
      ∧ (handleTurnComplete 9 stBothTranscripts).currentOutputTranscription = "")
    ∧ (handleTurnComplete 9 initialState).chatHistory = initialState.chatHistory :=
  ⟨(turnComplete_appends_and_clears 9 stBothTranscripts).1 (by decide) (by decide),
   (turnComplete_appends_and_clears 9 initialState).2 rfl rfl⟩

/-- C9: toggling the microphone only flips the capture-enabled flag and
leaves the connection state and the active session handle untouched; the
audio frame tap consults the flag and sends nothing while it is off, and
sends exactly the encoded frame while it is on. -/
theorem toggleMic_preserves_connection (s : SessionState) (inputData : List ℚ) :
    (toggleMic s).connectionStatus = s.connectionStatus
    ∧ (toggleMic s).hasActiveSession = s.hasActiveSession
    ∧ (toggleMic s).isMicOn = !s.isMicOn
    ∧ (toggleMic s).chatHistory = s.chatHistory
    ∧ (s.isMicOn = false → onaudioprocess inputData s = (s, []))
    ∧ (s.isMicOn = true →
        (onaudioprocess inputData s).2 = [OutboundMessage.mediaAudio (createPcmBlob inputData)]) := by
  refine ⟨rfl, rfl, rfl, rfl, fun hoff => ?_, fun hon => ?_⟩
  · simp [onaudioprocess, hoff]
  · have hcond : ¬ (s.isMicOn = false) := by simp [hon]
    simp only [onaudioprocess, if_neg hcond]

/-- Witness for C9: the tap is silent with the microphone off and sends
the encoded frame with it on. -/
theorem toggleMic_preserves_connection_witness :
    onaudioprocess [] stMicOff = (stMicOff, [])
    ∧ (onaudioprocess [] initialState).2 = [OutboundMessage.mediaAudio (createPcmBlob [])] :=
  ⟨(toggleMic_preserves_connection stMicOff []).2.2.2.2.1 rfl,
   (toggleMic_preserves_connection initialState []).2.2.2.2.2 rfl⟩

/-- C10: the steering command is a complete no-op when the steering text
trims to empty or no active session handle exists; otherwise it appends
exactly one user turn with the directive marker and sends exactly one
in-band content message carrying the text. -/
theorem handleSteering_guard_and_send (now : Nat) (s : SessionState) :
    ((trimString s.steeringInput = "" ∨ s.hasActiveSession = false) →
      handleSteering now s = (s, []))
    ∧ (trimString s.steeringInput ≠ "" → s.hasActiveSession = true →
        (handleSteering now s).1.chatHistory
            = s.chatHistory
              ++ [{ role := Role.user, text := "(指令) " ++ s.steeringInput, timestamp := now }]
        ∧ (handleSteering now s).2
            = [OutboundMessage.content "user" ("[System Instruction: " ++ s.steeringInput ++ "]")]
        ∧ (handleSteering now s).1.steeringInput = "") := by
  constructor
  · intro h
    simp only [handleSteering, if_pos h]
  · intro ht hs
    have hcond : ¬ (trimString s.steeringInput = "" ∨ s.hasActiveSession = false) := by
      simp [ht, hs]
    simp only [handleSteering, if_neg hcond]
    refine ⟨?_, ?_, ?_⟩ <;> first | rfl | trivial

/-- Witness for C10: the no-op guard at the initial state and the
append-and-send behavior at a connected state with a pending directive. -/
theorem handleSteering_guard_and_send_witness :
    handleSteering 1 initialState = (initialState, [])
    ∧ (handleSteering 2 stSteering).1.chatHistory
        = stSteering.chatHistory
          ++ [{ role := Role.user, text := "(指令) " ++ stSteering.steeringInput, timestamp := 2 }]
    ∧ (handleSteering 2 stSteering).2
        = [OutboundMessage.content "user"
            ("[System Instruction: " ++ stSteering.steeringInput ++ "]")] :=
  ⟨(handleSteering_guard_and_send 1 initialState).1 (Or.inl (by decide)),
   ((handleSteering_guard_and_send 2 stSteering).2 (by decide) rfl).1,
   ((handleSteering_guard_and_send 2 stSteering).2 (by decide) rfl).2.1⟩

/-- C5: the coaching turns appended by an update_mindset call come in the
fixed order feedback, reference, hint, exactly one turn per present field,
and their timestamps are strictly increasing, so sorting by timestamp
preserves the order. -/
theorem coach_turns_fixed_order (now : Nat) (callId : String)
    (args : InterviewerMindset) (s : SessionState) :
    (handleFunctionCall now callId "update_mindset" args s).1.chatHistory
        = s.chatHistory ++ coachTurns now args
    ∧ (coachTurns now args).map (fun m => m.role)
        = (if feedbackPresent args then [Role.coachFeedback] else [])
          ++ (if referencePresent args then [Role.coachReference] else [])
          ++ (if hintPresent args then [Role.coachHint] else [])
    ∧ List.Chain' (fun a b => a.timestamp < b.timestamp) (coachTurns now args) := by
  refine ⟨rfl, ?_, ?_⟩
  · rcases hfb : args.last_answer_feedback with _ | fb <;>
      rcases href : args.reference_answer_for_question with _ | r <;>
        rcases htip : args.suggested_answer_tips with _ | t <;>
          simp [coachTurns, feedbackTurns, referenceTurns, hintTurns,
            feedbackPresent, referencePresent, hintPresent, hfb, href, htip] <;>
          split_ifs <;> simp
  · rcases hfb : args.last_answer_feedback with _ | fb <;>
      rcases href : args.reference_answer_for_question with _ | r <;>
        rcases htip : args.suggested_answer_tips with _ | t <;>
          simp [coachTurns, feedbackTurns, referenceTurns, hintTurns, hfb, href, htip] <;>
          split_ifs <;> simp [List.chain'_cons]

/-- C6: on a retry with more than twenty conversational turns the replay
context holds exactly the most recent twenty turns, in original
oldest-first order (a suffix of the formatted full transcript), and the
prepared instruction appends exactly these lines to the persona
instruction. -/
theorem reconnect_replay_last20 (sys : String) (history : List ChatMessage)
    (h : 20 < (convTurns history).length) :
    (replayLines history).length = 20
    ∧ replayLines history
        = ((convTurns history).map formatTurn).drop ((convTurns history).length - 20)
    ∧ (replayLines history) <:+ ((convTurns history).map formatTurn)
    ∧ prepareInstruction sys true history
        = sys ++ "\n\n[SYSTEM: CONNECTION RESTORED] Resume the interview. Transcript:\n"
            ++ String.intercalate "\n" (replayLines history) := by
  have hdrop : replayLines history
      = ((convTurns history).map formatTurn).drop ((convTurns history).length - 20) := by
    simp [replayLines, sliceLast, List.map_drop]
  refine ⟨?_, hdrop, ?_, ?_⟩
  · simp only [replayLines, sliceLast, List.length_map, List.length_drop]
    omega
  · rw [hdrop]
    exact List.drop_suffix _ _
  · have hlen : 0 < history.length := by
      have := List.length_filter_le (fun m => m.role == Role.user || m.role == Role.model) history
      simp only [convTurns] at h
      omega
    simp [prepareInstruction, hlen]

/-- Witness for C6 at a concrete 25-turn transcript. -/
theorem reconnect_replay_last20_witness :
    20 < (convTurns hist25).length ∧ (replayLines hist25).length = 20 :=
  ⟨by decide, (reconnect_replay_last20 "persona" hist25 (by decide)).1⟩

/-! ## Scheduling lemmas for C1 -/

lemma schedInv_handleAudioChunk {s : SessionState} {t d : ℚ} (hd : 0 ≤ d)
    (h : SchedInv s) : SchedInv (handleAudioChunk t d s) := by
  obtain ⟨hchain, hend⟩ := h
  have hmax : s.nextStartTime ≤ max s.nextStartTime t := le_max_left _ _
  constructor
  · simp only [handleAudioChunk, gapless, List.chain'_append]
    refine ⟨hchain, List.chain'_singleton _, ?_⟩
    intro x hx y hy
    have hxmem : x ∈ s.sources := List.mem_of_getLast?_eq_some hx
    simp only [List.head?_cons, Option.mem_def, Option.some.injEq] at hy
    subst hy
    exact le_trans (hend x hxmem) hmax
  · intro g hg
    simp only [handleAudioChunk, List.mem_append, List.mem_singleton] at hg
    rcases hg with hg | hg
    · have := hend g hg
      simp only [handleAudioChunk]
      linarith
    · subst hg
      simp only [handleAudioChunk]
      exact le_rfl

lemma nextStartTime_le_handleAudioChunk (s : SessionState) (t d : ℚ) (hd : 0 ≤ d) :
    s.nextStartTime ≤ (handleAudioChunk t d s).nextStartTime := by
  simp only [handleAudioChunk]
  have := le_max_left s.nextStartTime t
  linarith

lemma schedInv_runChunks {s : SessionState} {evs : List AudioChunkEvent}
    (hd : ∀ e ∈ evs, 0 ≤ e.duration) (h : SchedInv s) : SchedInv (runChunks s evs) := by
  induction evs generalizing s with
  | nil => exact h
  | cons e rest ih =>
      have h1 : SchedInv (handleAudioChunk e.ctxTime e.duration s) :=
        schedInv_handleAudioChunk (hd e (List.mem_cons_self e rest)) h
      exact ih (fun x hx => hd x (List.mem_cons_of_mem e hx)) h1

lemma nextStartTime_le_runChunks (s : SessionState) (evs : List AudioChunkEvent)
    (hd : ∀ e ∈ evs, 0 ≤ e.duration) :
    s.nextStartTime ≤ (runChunks s evs).nextStartTime := by
  induction evs generalizing s with
  | nil => exact le_rfl
  | cons e rest ih =>
      calc s.nextStartTime
          ≤ (handleAudioChunk e.ctxTime e.duration s).nextStartTime :=
            nextStartTime_le_handleAudioChunk s e.ctxTime e.duration
              (hd e (List.mem_cons_self e rest))
        _ ≤ (runChunks (handleAudioChunk e.ctxTime e.duration s) rest).nextStartTime :=
            ih _ (fun x hx => hd x (List.mem_cons_of_mem e hx))

lemma runChunks_append (s : SessionState) (l₁ l₂ : List AudioChunkEvent) :
    runChunks s (l₁ ++ l₂) = runChunks (runChunks s l₁) l₂ :=
  List.foldl_append _ _ l₁ l₂

/-- C1: for every sequence of inbound audioChunk events with nonnegative
buffer durations, the resulting playback schedule is non-overlapping and
gapless (every segment ends no later than the next starts) and the
cumulative scheduled end time is monotonically non-decreasing along the
sequence. -/
theorem audioChunk_schedule_gapless (evs : List AudioChunkEvent)
    (hd : ∀ e ∈ evs, 0 ≤ e.duration) :
    gapless (runChunks initialState evs).sources
    ∧ ∀ l₁ l₂, evs = l₁ ++ l₂ →
        (runChunks initialState l₁).nextStartTime
          ≤ (runChunks initialState evs).nextStartTime := by
  constructor
  · have hinv : SchedInv initialState := by
      constructor
      · simp [gapless, initialState]
      · intro g hg
        simp [initialState] at hg
    exact (schedInv_runChunks hd hinv).1
  · intro l₁ l₂ hsplit
    subst hsplit
    rw [runChunks_append]
    exact nextStartTime_le_runChunks _ l₂
      (fun x hx => hd x (List.mem_append_right l₁ hx))

/-- Witness for C1 at a concrete two-chunk sequence. -/
theorem audioChunk_schedule_gapless_witness :
    (∀ e ∈ chunksEx, 0 ≤ e.duration)
    ∧ gapless (runChunks initialState chunksEx).sources :=
  ⟨by decide, (audioChunk_schedule_gapless chunksEx (by decide)).1⟩

/-! ## Codec roundtrip lemmas for C8 -/

lemma abs_decode_encode_sub_le (x : ℚ) (h1 : -1 ≤ x) (h2 : x ≤ 1) :
    |decodeSample (encodeSample x) - x| ≤ 1 / 32768 := by
  have hr := abs_sub_round (x * 32768)
  rw [abs_le] at hr
  obtain ⟨hr1, hr2⟩ := hr
  have hml : (-32768 : ℤ) ≤ round (x * 32768) := by
    by_contra hc
    push_neg at hc
    have hc1 : round (x * 32768) ≤ -32769 := by omega
    have hc2 : ((round (x * 32768) : ℤ) : ℚ) ≤ -32769 := by exact_mod_cast hc1
    linarith
  have hmu : round (x * 32768) ≤ 32768 := by
    by_contra hc
    push_neg at hc
    have hc1 : (32769 : ℤ) ≤ round (x * 32768) := by omega
    have hc2 : (32769 : ℚ) ≤ ((round (x * 32768) : ℤ) : ℚ) := by exact_mod_cast hc1
    linarith
  rcases le_or_lt (round (x * 32768)) 32767 with hcase | hcase
  · have he : encodeSample x = round (x * 32768) := by
      rw [encodeSample, min_eq_right hcase, max_eq_right hml]
    rw [he, decodeSample, abs_le]
    constructor <;> linarith
  · have hm38 : round (x * 32768) = 32768 := by omega
    have he : encodeSample x = 32767 := by
      rw [encodeSample, hm38]
      decide
    rw [hm38] at hr1 hr2
    push_cast at hr1 hr2
    rw [he, decodeSample, abs_le]
    constructor <;> push_cast <;> linarith

/-- C8: for every sample sequence within the unit range, decoding the
encoded sequence reconstructs each sample within one 16-bit quantization
step; encoding is a total deterministic function whose output is always a
valid 16-bit signed value, clamping out-of-range input rather than
failing. -/
theorem pcm_roundtrip (samples : List ℚ) (h : ∀ x ∈ samples, -1 ≤ x ∧ x ≤ 1) :
    List.Forall₂ (fun x y => |y - x| ≤ 1 / 32768) samples (decodePcm (createPcmBlob samples))
    ∧ ∀ x : ℚ, -32768 ≤ encodeSample x ∧ encodeSample x ≤ 32767 := by
  constructor
  · rw [decodePcm, createPcmBlob, List.map_map, List.forall₂_map_right_iff,
      List.forall₂_same]
    intro x hx
    exact abs_decode_encode_sub_le x (h x hx).1 (h x hx).2
  · intro x
    refine ⟨le_max_left _ _, ?_⟩
    exact max_le (by norm_num) (min_le_left _ _)

/-- Witness for C8 at a concrete in-range sample sequence. -/
theorem pcm_roundtrip_witness :
    (∀ x ∈ ([0, 1, -1] : List ℚ), -1 ≤ x ∧ x ≤ 1)
    ∧ List.Forall₂ (fun x y => |y - x| ≤ 1 / 32768) [0, 1, -1]
        (decodePcm (createPcmBlob [0, 1, -1])) :=
  ⟨by decide, (pcm_roundtrip [0, 1, -1] (by decide)).1⟩

end AIMaster
